import Mathlib

/-!
Verification development for the ludownloader HTTP download manager.

The embedding models the download manager core of the repository:
the registry of downloads (`ManagerInner`, guarded by a `RwLock` in
`src/downloader/src/httpdownload/manager/mod.rs`), its operations
(start/stop/add and the route-level resume/delete/start_all/stop_all),
the observer state map, the transfer loop update stream, and the
`create_download` route handler of `src/backend/server/src/routes/mod.rs`.

Machine identifiers (UUIDs, task ids) are modelled as natural numbers;
the file system is modelled as a list of present paths; fallible
operations return `Except`.
-/

/-- Download identifier. `uuid::Uuid` is an opaque token; modelled as `Nat`. -/
abbrev Uuid := Nat

/-- The data of one download, from `HttpDownload` as used in
`src/backend/server/src/routes/mod.rs` (url, download directory, file name). -/
structure HttpDownload where
  url : String
  directory : String
  fileName : String
deriving DecidableEq, Repr

/-- Destination path of a download, as `HttpDownload::file_path` used by
`create_download` and the manager test in mod.rs. -/
def HttpDownload.file_path (d : HttpDownload) : String :=
  d.directory ++ "/" ++ d.fileName

/-- `download::State`: the per-download state variants of the data model
(Paused(bytes), Downloading(bytes, total?), Completed(total), Failed(reason)),
as used by `state.observer.track(id, download::State::Paused(bytes_downloaded))`
in routes/mod.rs and described in the spec data model. -/
inductive DownloadState where
  | Paused (bytes : Nat)
  | Downloading (bytes : Nat) (total : Option Nat)
  | Completed (total : Nat)
  | Failed (reason : String)
deriving DecidableEq, Repr

/-- Modelled from the spec: the manager error taxonomy. The variants
`Access`, `HttpDownloadError`, `TokioThreadingError`, `DownloadNotRunning`
and `LockError` are exactly the `Error` enum of
src/downloader/src/httpdownload/manager/mod.rs lines 16-28; the `inner`
module (`mod inner`, not under src/) decides which error is returned for
an unknown identifier and for an already-running download, which the spec
taxonomy names `NotFound` and `AlreadyRunning`; those two are added here
under the spec's names. -/
inductive ManagerError where
  | Access (msg : String)
  | HttpDownloadError (msg : String)
  | TokioThreadingError (msg : String)
  | DownloadNotRunning
  | LockError
  | NotFound
  | AlreadyRunning
deriving DecidableEq, Repr

/-- A running task handle: the task identifier of the spawned transfer task
together with the resume offset it was started with (`None` for a plain
start, the last known byte count for a resume). -/
structure TaskHandle where
  taskId : Nat
  resumeOffset : Option Nat
deriving DecidableEq, Repr

/-- One registry entry: the download and an optional running task handle,
after `DownloaderItem` of src/download-manager/src/lib.rs
(`download`, `handle: Option<JoinHandle<...>>`). -/
structure DownloaderItem where
  download : HttpDownload
  handle : Option TaskHandle
deriving DecidableEq, Repr

/-- The manager registry (`ManagerInner` behind the `RwLock` in mod.rs):
the identifier-to-entry map, a ledger of currently live spawned tasks
(identifier, task id), and a source of fresh task identifiers. The
ledger makes the number of concurrently running tasks per identifier an
explicit observable of the model. -/
structure ManagerInner where
  items : List (Uuid × DownloaderItem)
  liveTasks : List (Uuid × Nat)
  nextTask : Nat
deriving DecidableEq, Repr

/-- Lookup of a registry entry by identifier. -/
def lookupItem : List (Uuid × DownloaderItem) → Uuid → Option DownloaderItem
  | [], _ => none
  | (k, v) :: rest, id => if k = id then some v else lookupItem rest id

/-- Replace the entry stored for an identifier (no effect on other keys,
no effect at all when the identifier is absent). -/
def setItem (xs : List (Uuid × DownloaderItem)) (id : Uuid) (v : DownloaderItem) :
    List (Uuid × DownloaderItem) :=
  xs.map (fun p => if p.fst = id then (p.fst, v) else p)

/-- Remove the entry stored for an identifier. -/
def removeItem (xs : List (Uuid × DownloaderItem)) (id : Uuid) :
    List (Uuid × DownloaderItem) :=
  xs.filter (fun p => p.fst ≠ id)

/-- Number of live spawned tasks recorded for an identifier. -/
def taskCount (l : List (Uuid × Nat)) (id : Uuid) : Nat :=
  (l.filter (fun p => p.fst = id)).length

/-- 1 when the registry entry for the identifier holds a task handle,
0 otherwise: what the registry claims is running. -/
def runningFlag (s : ManagerInner) (id : Uuid) : Nat :=
  match lookupItem s.items id with
  | some item => match item.handle with | some _ => 1 | none => 0
  | none => 0

/-- Whether the registry entry for the identifier holds a running task
handle (false also for an unknown identifier). -/
def hasRunningHandle (s : ManagerInner) (id : Uuid) : Bool :=
  match lookupItem s.items id with
  | some item => item.handle.isSome
  | none => false

/-- Modelled from the spec: `ManagerInner::start` with an explicit resume offset
(the body of `inner.start(id)` lives in `mod inner`, which is not under
src/). Per the spec: fails with `NotFound` if the identifier is unknown,
fails with `AlreadyRunning` if a task handle is already present, otherwise
spawns the transfer task (recorded in the live-task ledger), stores its
handle and leaves the entry Running. An error leaves the state unchanged. -/
def ManagerInner.startWith (s : ManagerInner) (id : Uuid) (offset : Option Nat) :
    Except ManagerError Unit × ManagerInner :=
  match lookupItem s.items id with
  | none => (Except.error ManagerError.NotFound, s)
  | some item =>
    match item.handle with
    | some _ => (Except.error ManagerError.AlreadyRunning, s)
    | none =>
      (Except.ok (),
        { items := setItem s.items id
            { download := item.download,
              handle := some { taskId := s.nextTask, resumeOffset := offset } },
          liveTasks := (id, s.nextTask) :: s.liveTasks,
          nextTask := s.nextTask + 1 })

/-- `DownloadManager::start` (mod.rs lines 63-66): acquires the write lock
by unbounded wait (`self.inner.write().await`, infallible) and delegates to
`ManagerInner::start`, which starts with no resume offset. -/
def ManagerInner.start (s : ManagerInner) (id : Uuid) : Except ManagerError Unit × ManagerInner :=
  ManagerInner.startWith s id none

/-- Modelled from the spec: `ManagerInner::stop` (the body of `inner.stop(id)`
lives in `mod inner`, not under src/). Per the spec: fails with
`DownloadNotRunning` if no task handle is present (in particular for an
unknown identifier), otherwise cancels the task, awaits it, and removes
the handle and the live task. An error leaves the state unchanged. -/
def ManagerInner.stop (s : ManagerInner) (id : Uuid) : Except ManagerError Unit × ManagerInner :=
  match lookupItem s.items id with
  | none => (Except.error ManagerError.DownloadNotRunning, s)
  | some item =>
    match item.handle with
    | none => (Except.error ManagerError.DownloadNotRunning, s)
    | some _ =>
      (Except.ok (),
        { items := setItem s.items id { download := item.download, handle := none },
          liveTasks := s.liveTasks.filter (fun p => p.fst ≠ id),
          nextTask := s.nextTask })

/-- Modelled from the spec: `ManagerInner::add` (the body of `inner.add(download)`
lives in `mod inner`, not under src/). The fresh identifier produced by
`Uuid::new_v4()` (see `DownloaderItem::new` in
src/download-manager/src/lib.rs, which also sets `handle: None`) is
modelled as the explicit argument `fid`. The entry is inserted with no
task handle, no task is spawned, and the identifier is returned
(`DownloadManager::add` returns `Result<Uuid>`, mod.rs lines 73-77);
the operation itself cannot fail. -/
def ManagerInner.add (s : ManagerInner) (fid : Uuid) (d : HttpDownload) :
    Except ManagerError Uuid × ManagerInner :=
  (Except.ok fid,
    { items := (fid, { download := d, handle := none }) :: s.items,
      liveTasks := s.liveTasks,
      nextTask := s.nextTask })

/-- The observer state map: identifier to last-known download state, as
maintained by `DownloadObserver` and queried via `get_state` /
`get_state_all` in routes/mod.rs. -/
abbrev ObserverMap := List (Uuid × DownloadState)

/-- Lookup of the last-known state of an identifier. -/
def lookupState : ObserverMap → Uuid → Option DownloadState
  | [], _ => none
  | (k, v) :: rest, id => if k = id then some v else lookupState rest id

/-- Modelled from the spec: `DownloadObserver::track` (the observer module
is not under src/). Per the spec the observer maintains a mapping from
download identifier to last-known state; `track(id, state)` sets the
state recorded for the identifier. -/
def Observer.track (obs : ObserverMap) (id : Uuid) (st : DownloadState) : ObserverMap :=
  (id, st) :: obs.filter (fun p => p.fst ≠ id)

/-- Modelled from the spec: `DownloadObserver::get_state(id)`, the point
state query answered from the observer mapping. -/
def Observer.get_state (obs : ObserverMap) (id : Uuid) : Option DownloadState :=
  lookupState obs id

/-- True exactly on a `Paused` state. -/
def isPausedState : DownloadState → Bool
  | DownloadState.Paused _ => true
  | _ => false

/-- Modelled from the spec: `DownloadManager::resume` (called as
`state.manager.resume(&id).await` in routes/mod.rs lines 66-74; the
implementation is not under src/). Per the spec it is equivalent to
`start` except that it passes the unit's last known byte count as the
resume offset, and it fails if the unit is not currently `Paused`. -/
def ManagerInner.resume (s : ManagerInner) (obs : ObserverMap) (id : Uuid) :
    Except ManagerError Unit × ManagerInner :=
  match Observer.get_state obs id with
  | some (DownloadState.Paused b) => ManagerInner.startWith s id (some b)
  | _ => (Except.error (ManagerError.Access "download is not paused"), s)

/-- Modelled from the spec: `DownloadManager::delete(id, delete_file)`
(called as `manager.delete(&id, *delete_file).await` in routes/mod.rs
lines 32-44; the implementation is not under src/). Per the spec it fails
while the download is `Running` (a task handle is present), leaving the
registry and the file system untouched; otherwise it removes the registry
entry and deletes the destination file exactly when the flag is true.
The file system is modelled as the list of present paths. -/
def ManagerInner.delete (s : ManagerInner) (fs : List String) (id : Uuid)
    (removeFile : Bool) : Except ManagerError Unit × ManagerInner × List String :=
  match lookupItem s.items id with
  | none => (Except.error ManagerError.NotFound, s, fs)
  | some item =>
    match item.handle with
    | some _ => (Except.error (ManagerError.Access "delete while download is running"), s, fs)
    | none =>
      (Except.ok (),
        { items := removeItem s.items id,
          liveTasks := s.liveTasks,
          nextTask := s.nextTask },
        if removeFile then
          fs.filter (fun p => p ≠ HttpDownload.file_path item.download)
        else fs)

/-- Apply `start` to each identifier of the list in turn, collecting every
per-identifier outcome and threading the registry state. -/
def startAllGo (s : ManagerInner) :
    List Uuid → List (Uuid × Except ManagerError Unit) × ManagerInner
  | [] => ([], s)
  | id :: rest =>
    let r := ManagerInner.start s id
    let next := startAllGo r.snd rest
    ((id, r.fst) :: next.fst, next.snd)

/-- Apply `stop` to each identifier of the list in turn, collecting every
per-identifier outcome and threading the registry state. -/
def stopAllGo (s : ManagerInner) :
    List Uuid → List (Uuid × Except ManagerError Unit) × ManagerInner
  | [] => ([], s)
  | id :: rest =>
    let r := ManagerInner.stop s id
    let next := stopAllGo r.snd rest
    ((id, r.fst) :: next.fst, next.snd)

/-- Modelled from the spec: `DownloadManager::start_all` (called from the
`start_all_downloads` route, routes/mod.rs lines 164-166; the
implementation is not under src/). Per the spec it applies `start` to
every registered identifier independently, reporting per-identifier
outcomes instead of aborting the batch. -/
def ManagerInner.start_all (s : ManagerInner) :
    List (Uuid × Except ManagerError Unit) × ManagerInner :=
  startAllGo s (s.items.map Prod.fst)

/-- Modelled from the spec: `DownloadManager::stop_all` (called from the
`stop_all_downloads` route, routes/mod.rs lines 168-170; the
implementation is not under src/). Per the spec it applies `stop` to
every registered identifier independently, reporting per-identifier
outcomes instead of aborting the batch. -/
def ManagerInner.stop_all (s : ManagerInner) :
    List (Uuid × Except ManagerError Unit) × ManagerInner :=
  stopAllGo s (s.items.map Prod.fst)

/-- Modelled from the spec: the events driving one pass of the transfer
loop of `HttpDownload::run` (the download module is not under src/): a
received body chunk of some size, an observed cancellation signal, or an
I/O or protocol failure. -/
inductive TransferEvent where
  | chunk (size : Nat)
  | cancel
  | failure (reason : String)
deriving DecidableEq, Repr

/-- The cumulative byte count carried by an update message, when it
carries one (`Failed` carries only a reason). -/
def bytesOfUpdate : DownloadState → Option Nat
  | DownloadState.Paused b => some b
  | DownloadState.Downloading b _ => some b
  | DownloadState.Completed b => some b
  | DownloadState.Failed _ => none

/-- Modelled from the spec: the transfer loop of `HttpDownload::run`
(not under src/). State: `disk` bytes durably flushed to the destination
file, `buf` bytes appended but not yet flushed, `cnt` chunks received
since the last emission; `cadence` bounds the emission interval in chunks
and `total` is the size hint carried by progress updates. Per the spec
the loop streams chunks, flushing and emitting a progress update with the
cumulative byte count at the bounded cadence; on cancellation it flushes
pending bytes and emits a final `Paused` update with the exact byte count
flushed; on completion it emits `Completed`; on an error it emits
`Failed`. Returns the emitted updates in order together with the byte
count durably on disk when the loop returns. -/
def runLoop (cadence : Nat) (total : Option Nat) :
    Nat → Nat → Nat → List TransferEvent → List DownloadState × Nat
  | disk, buf, _, [] => ([DownloadState.Completed (disk + buf)], disk + buf)
  | disk, buf, cnt, TransferEvent.chunk n :: rest =>
    if cadence ≤ cnt + 1 then
      let r := runLoop cadence total (disk + (buf + n)) 0 0 rest
      (DownloadState.Downloading (disk + (buf + n)) total :: r.fst, r.snd)
    else
      runLoop cadence total disk (buf + n) (cnt + 1) rest
  | disk, buf, _, TransferEvent.cancel :: _ => ([DownloadState.Paused (disk + buf)], disk + buf)
  | disk, _, _, TransferEvent.failure reason :: _ => ([DownloadState.Failed reason], disk)

/-- Consecutive-pair non-decrease over a list of byte counts. -/
def nondecr : List Nat → Prop
  | [] => True
  | [_] => True
  | a :: b :: rest => a ≤ b ∧ nondecr (b :: rest)

/-- The environment of one `create_download` request (routes/mod.rs lines
86-140): the outcome of `Url::parse`, the settings download directory,
the outcome of `parse_filename`, the outcome of `tokio::fs::try_exists`
on the parsed name, the `Uuid::new_v4()` drawn for a rename, the outcome
of `HttpDownload::create`, the on-disk `file_size` function, and the
identifier assigned by `manager.add`. -/
structure CreateEnv where
  parsedUrl : Option String
  downloadDirectory : String
  parsedFileName : Option String
  tryExistsResult : Except String Bool
  renameUuid : Uuid
  createOk : Bool
  createErrMsg : String
  fileSize : String → Nat
  freshId : Uuid

/-- The collision check of routes/mod.rs lines 110-113:
`tokio::fs::try_exists(..).await.unwrap_or(false)` — a failed existence
check is treated as the file not existing. -/
def existsCheck : Except String Bool → Bool
  | Except.ok b => b
  | Except.error _ => false

/-- The file-name resolution of routes/mod.rs lines 110-115: when the
existence check reports the file present, the name is prefixed with a
fresh UUID and a dash; otherwise the parsed name is used unchanged. -/
def resolveName (r : Except String Bool) (u : Uuid) (name : String) : String :=
  if existsCheck r then toString u ++ "-" ++ name else name

/-- The `create_download` route handler (routes/mod.rs lines 86-140):
parse the URL (else 400), read the download directory, parse the file
name (else 400), resolve collisions via `resolveName`, create the
download (else 500), then read the on-disk byte count of the destination
path, add the download to the manager, and track it at the observer as
`Paused(bytes_downloaded)`; replies 201 CREATED with the metadata. -/
def create_download (env : CreateEnv) (s : ManagerInner) (obs : ObserverMap) :
    Except (Nat × String) (Nat × HttpDownload) × ManagerInner × ObserverMap :=
  match env.parsedUrl with
  | none => (Except.error (400, "Invalid URL, could not parse"), s, obs)
  | some u =>
    match env.parsedFileName with
    | none => (Except.error (400, "Could not parse filename from url"), s, obs)
    | some name0 =>
      let file_name := resolveName env.tryExistsResult env.renameUuid name0
      if env.createOk then
        let d : HttpDownload :=
          { url := u, directory := env.downloadDirectory, fileName := file_name }
        let bytes := env.fileSize (HttpDownload.file_path d)
        let r := ManagerInner.add s env.freshId d
        (Except.ok (201, d), r.snd,
          Observer.track obs env.freshId (DownloadState.Paused bytes))
      else
        (Except.error (500, env.createErrMsg), s, obs)

/-- Whether the observer currently reports the identifier as `Paused`. -/
def observedPaused (obs : ObserverMap) (id : Uuid) : Bool :=
  match Observer.get_state obs id with
  | some (DownloadState.Paused _) => true
  | _ => false

/-- A concrete download used by the witnesses. -/
def exampleDownload : HttpDownload :=
  { url := "https://example.com/f.bin", directory := "/downloads", fileName := "f.bin" }

/-- A registry entry with no running task handle. -/
def exampleIdleItem : DownloaderItem :=
  { download := exampleDownload, handle := none }

/-- A registry entry with a running task handle. -/
def exampleRunningItem : DownloaderItem :=
  { download := exampleDownload, handle := some { taskId := 3, resumeOffset := none } }

/-- A registry holding one idle download under identifier 7. -/
def exampleReg : ManagerInner :=
  { items := [(7, exampleIdleItem)], liveTasks := [], nextTask := 0 }

/-- A registry holding a running download under identifier 5 and an idle
one under identifier 6. -/
def exampleMixedReg : ManagerInner :=
  { items := [(5, exampleRunningItem), (6, exampleIdleItem)], liveTasks := [(5, 3)], nextTask := 4 }

/-- An observer map reporting identifier 7 paused at byte 42 and
identifier 5 downloading. -/
def exampleObs : ObserverMap :=
  [(7, DownloadState.Paused 42), (5, DownloadState.Downloading 10 none)]

/-- A concrete `create_download` environment: everything parses, the
existence check fails with an I/O error, creation succeeds, the file on
disk holds 42 bytes, and the manager assigns identifier 9. -/
def exampleEnv : CreateEnv :=
  { parsedUrl := some "https://example.com/f.bin",
    downloadDirectory := "/downloads",
    parsedFileName := some "f.bin",
    tryExistsResult := Except.error "io error",
    renameUuid := 11,
    createOk := true,
    createErrMsg := "",
    fileSize := fun _ => 42,
    freshId := 9 }

/-- A concrete transfer event trace: two chunks, then cancellation. -/
def exampleEvents : List TransferEvent :=
  [TransferEvent.chunk 3, TransferEvent.chunk 2, TransferEvent.cancel]

/-- True exactly when a manager operation returned an error. -/
def exceptFailed : Except ManagerError Unit → Bool
  | Except.error _ => true
  | Except.ok _ => false

theorem lookupItem_cons_eq (k : Uuid) (w : DownloaderItem)
    (rest : List (Uuid × DownloaderItem)) :
    lookupItem ((k, w) :: rest) k = some w := by
  simp [lookupItem]

theorem lookupItem_cons_ne (k : Uuid) (w : DownloaderItem)
    (rest : List (Uuid × DownloaderItem)) (id : Uuid) (h : ¬ k = id) :
    lookupItem ((k, w) :: rest) id = lookupItem rest id := by
  simp [lookupItem, h]

theorem setItem_cons_eq (k : Uuid) (w : DownloaderItem)
    (rest : List (Uuid × DownloaderItem)) (v : DownloaderItem) :
    setItem ((k, w) :: rest) k v = (k, v) :: setItem rest k v := by
  simp [setItem]

theorem setItem_cons_ne (k : Uuid) (w : DownloaderItem)
    (rest : List (Uuid × DownloaderItem)) (id : Uuid) (v : DownloaderItem)
    (h : ¬ k = id) :
    setItem ((k, w) :: rest) id v = (k, w) :: setItem rest id v := by
  simp [setItem, h]

theorem removeItem_cons_eq (k : Uuid) (w : DownloaderItem)
    (rest : List (Uuid × DownloaderItem)) :
    removeItem ((k, w) :: rest) k = removeItem rest k := by
  simp [removeItem, List.filter_cons]

theorem removeItem_cons_ne (k : Uuid) (w : DownloaderItem)
    (rest : List (Uuid × DownloaderItem)) (id : Uuid) (h : ¬ k = id) :
    removeItem ((k, w) :: rest) id = (k, w) :: removeItem rest id := by
  simp [removeItem, List.filter_cons, h]

theorem lookupItem_set_self (xs : List (Uuid × DownloaderItem)) (id : Uuid)
    (v item : DownloaderItem) (h : lookupItem xs id = some item) :
    lookupItem (setItem xs id v) id = some v := by
  induction xs with
  | nil => simp [lookupItem] at h
  | cons p rest ih =>
    obtain ⟨k, w⟩ := p
    by_cases hk : k = id
    · subst hk
      rw [setItem_cons_eq, lookupItem_cons_eq]
    · rw [setItem_cons_ne k w rest id v hk,
        lookupItem_cons_ne k w (setItem rest id v) id hk]
      rw [lookupItem_cons_ne k w rest id hk] at h
      exact ih h

theorem lookupItem_set_other (xs : List (Uuid × DownloaderItem)) (id id2 : Uuid)
    (v : DownloaderItem) (h : id2 ≠ id) :
    lookupItem (setItem xs id v) id2 = lookupItem xs id2 := by
  induction xs with
  | nil => simp [setItem, lookupItem]
  | cons p rest ih =>
    obtain ⟨k, w⟩ := p
    by_cases hk : k = id
    · subst hk
      have hk2 : ¬ (k = id2) := fun hcon => h hcon.symm
      rw [setItem_cons_eq, lookupItem_cons_ne k v (setItem rest k v) id2 hk2,
        lookupItem_cons_ne k w rest id2 hk2]
      exact ih
    · by_cases hk2 : k = id2
      · subst hk2
        rw [setItem_cons_ne k w rest id v hk, lookupItem_cons_eq, lookupItem_cons_eq]
      · rw [setItem_cons_ne k w rest id v hk,
          lookupItem_cons_ne k w (setItem rest id v) id2 hk2,
          lookupItem_cons_ne k w rest id2 hk2]
        exact ih

theorem lookupItem_remove_self (xs : List (Uuid × DownloaderItem)) (id : Uuid) :
    lookupItem (removeItem xs id) id = none := by
  induction xs with
  | nil => rfl
  | cons p rest ih =>
    obtain ⟨k, w⟩ := p
    by_cases hk : k = id
    · subst hk
      rw [removeItem_cons_eq]
      exact ih
    · rw [removeItem_cons_ne k w rest id hk, lookupItem_cons_ne k w (removeItem rest id) id hk]
      exact ih

theorem lookupItem_remove_other (xs : List (Uuid × DownloaderItem)) (id id2 : Uuid)
    (h : id2 ≠ id) :
    lookupItem (removeItem xs id) id2 = lookupItem xs id2 := by
  induction xs with
  | nil => rfl
  | cons p rest ih =>
    obtain ⟨k, w⟩ := p
    by_cases hk : k = id
    · subst hk
      have hk2 : ¬ (k = id2) := fun hcon => h hcon.symm
      rw [removeItem_cons_eq, lookupItem_cons_ne k w rest id2 hk2]
      exact ih
    · by_cases hk2 : k = id2
      · subst hk2
        rw [removeItem_cons_ne k w rest id hk, lookupItem_cons_eq, lookupItem_cons_eq]
      · rw [removeItem_cons_ne k w rest id hk,
          lookupItem_cons_ne k w (removeItem rest id) id2 hk2,
          lookupItem_cons_ne k w rest id2 hk2]
        exact ih

theorem taskCount_cons (k : Uuid) (t : Nat) (l : List (Uuid × Nat)) (id : Uuid) :
    taskCount ((k, t) :: l) id = taskCount l id + (if k = id then 1 else 0) := by
  by_cases hk : k = id <;> simp [taskCount, List.filter_cons, hk]

theorem get_state_track_self (obs : ObserverMap) (id : Uuid) (st : DownloadState) :
    Observer.get_state (Observer.track obs id st) id = some st := by
  simp [Observer.get_state, Observer.track, lookupState]

theorem not_mem_filter_ne_self (l : List String) (x : String) :
    x ∉ l.filter (fun p => p ≠ x) := by
  intro hx
  rcases List.mem_filter.mp hx with ⟨-, hb⟩
  simp at hb

theorem nondecr_singleton (a : Nat) : nondecr [a] := trivial

theorem nondecr_cons_of_le (a : Nat) (l : List Nat)
    (h1 : ∀ x ∈ l, a ≤ x) (h2 : nondecr l) : nondecr (a :: l) := by
  cases l with
  | nil => trivial
  | cons b r => exact ⟨h1 b (List.mem_cons_self b r), h2⟩

theorem runLoop_lb (cadence : Nat) (total : Option Nat) (evs : List TransferEvent) :
    ∀ disk buf cnt, ∀ u ∈ (runLoop cadence total disk buf cnt evs).fst,
      ∀ x, bytesOfUpdate u = some x → disk + buf ≤ x := by
  induction evs with
  | nil =>
    intro disk buf cnt u hu x hx
    simp [runLoop] at hu
    subst hu
    simp [bytesOfUpdate] at hx
    omega
  | cons ev rest ih =>
    intro disk buf cnt u hu x hx
    cases ev with
    | chunk n =>
      by_cases hc : cadence ≤ cnt + 1
      · simp only [runLoop, if_pos hc, List.mem_cons] at hu
        rcases hu with hu | hu
        · subst hu
          simp [bytesOfUpdate] at hx
          omega
        · have := ih (disk + (buf + n)) 0 0 u hu x hx
          omega
      · simp only [runLoop, if_neg hc] at hu
        have := ih disk (buf + n) (cnt + 1) u hu x hx
        omega
    | cancel =>
      simp [runLoop] at hu
      subst hu
      simp [bytesOfUpdate] at hx
      omega
    | failure reason =>
      simp [runLoop] at hu
      subst hu
      simp [bytesOfUpdate] at hx

theorem runLoop_mono (cadence : Nat) (total : Option Nat) (evs : List TransferEvent) :
    ∀ disk buf cnt,
      nondecr ((runLoop cadence total disk buf cnt evs).fst.filterMap bytesOfUpdate) := by
  induction evs with
  | nil =>
    intro disk buf cnt
    simp [runLoop, bytesOfUpdate]
    exact nondecr_singleton _
  | cons ev rest ih =>
    intro disk buf cnt
    cases ev with
    | chunk n =>
      by_cases hc : cadence ≤ cnt + 1
      · have hstep : (runLoop cadence total disk buf cnt (TransferEvent.chunk n :: rest)).fst =
            DownloadState.Downloading (disk + (buf + n)) total ::
              (runLoop cadence total (disk + (buf + n)) 0 0 rest).fst := by
          simp [runLoop, hc]
        rw [hstep]
        simp only [List.filterMap_cons, bytesOfUpdate]
        refine nondecr_cons_of_le _ _ ?_ (ih _ _ _)
        intro x hx
        rcases List.mem_filterMap.mp hx with ⟨u, hu, hux⟩
        have := runLoop_lb cadence total rest (disk + (buf + n)) 0 0 u hu x hux
        omega
      · have hstep : runLoop cadence total disk buf cnt (TransferEvent.chunk n :: rest) =
            runLoop cadence total disk (buf + n) (cnt + 1) rest := by
          simp [runLoop, hc]
        rw [hstep]
        exact ih _ _ _
    | cancel =>
      simp [runLoop, bytesOfUpdate]
      exact nondecr_singleton _
    | failure reason =>
      simp [runLoop, bytesOfUpdate]
      trivial

theorem runLoop_paused_flushed (cadence : Nat) (total : Option Nat)
    (evs : List TransferEvent) :
    ∀ disk buf cnt b,
      DownloadState.Paused b ∈ (runLoop cadence total disk buf cnt evs).fst →
      b = (runLoop cadence total disk buf cnt evs).snd := by
  induction evs with
  | nil =>
    intro disk buf cnt b hb
    simp [runLoop] at hb
  | cons ev rest ih =>
    intro disk buf cnt b hb
    cases ev with
    | chunk n =>
      by_cases hc : cadence ≤ cnt + 1
      · have hstep : runLoop cadence total disk buf cnt (TransferEvent.chunk n :: rest) =
            (DownloadState.Downloading (disk + (buf + n)) total ::
                (runLoop cadence total (disk + (buf + n)) 0 0 rest).fst,
              (runLoop cadence total (disk + (buf + n)) 0 0 rest).snd) := by
          simp [runLoop, hc]
        rw [hstep] at hb ⊢
        simp only [List.mem_cons] at hb
        rcases hb with hb | hb
        · exact absurd hb (by simp)
        · exact ih _ _ _ b hb
      · have hstep : runLoop cadence total disk buf cnt (TransferEvent.chunk n :: rest) =
            runLoop cadence total disk (buf + n) (cnt + 1) rest := by
          simp [runLoop, hc]
        rw [hstep] at hb ⊢
        exact ih _ _ _ b hb
    | cancel =>
      simp [runLoop] at hb ⊢
      exact hb
    | failure reason =>
      simp [runLoop] at hb

/-- C1: `start(id)` fails with `NotFound` when the identifier is not in
the registry and with `AlreadyRunning` when a task handle is already
present, in both cases leaving the state unchanged; otherwise it succeeds,
stores the handle of the newly spawned task (the entry is Running), and
the live-task ledger records exactly one running task for the identifier;
a second `start` without an intervening `stop` returns `AlreadyRunning`
and still leaves exactly one running task for the identifier. The
hypothesis says the ledger agrees with the registry about this identifier
before the call. -/
theorem start_c1 (s : ManagerInner) (id : Uuid)
    (hwf : taskCount s.liveTasks id = runningFlag s id) :
    (lookupItem s.items id = none →
      ManagerInner.start s id = (Except.error ManagerError.NotFound, s)) ∧
    (∀ item th, lookupItem s.items id = some item → item.handle = some th →
      ManagerInner.start s id = (Except.error ManagerError.AlreadyRunning, s)) ∧
    (∀ item, lookupItem s.items id = some item → item.handle = none →
      (ManagerInner.start s id).fst = Except.ok () ∧
      lookupItem (ManagerInner.start s id).snd.items id =
        some { download := item.download,
               handle := some { taskId := s.nextTask, resumeOffset := none } } ∧
      taskCount (ManagerInner.start s id).snd.liveTasks id = 1 ∧
      ManagerInner.start (ManagerInner.start s id).snd id =
        (Except.error ManagerError.AlreadyRunning, (ManagerInner.start s id).snd) ∧
      taskCount (ManagerInner.start (ManagerInner.start s id).snd id).snd.liveTasks id = 1) := by
  refine ⟨?_, ?_, ?_⟩
  · intro h
    simp [ManagerInner.start, ManagerInner.startWith, h]
  · intro item th h1 h2
    simp [ManagerInner.start, ManagerInner.startWith, h1, h2]
  · intro item h1 h2
    have hflag : runningFlag s id = 0 := by simp [runningFlag, h1, h2]
    have hcount : taskCount s.liveTasks id = 0 := by rw [hwf, hflag]
    have hs : ManagerInner.start s id =
        (Except.ok (),
          { items := setItem s.items id
              { download := item.download,
                handle := some { taskId := s.nextTask, resumeOffset := none } },
            liveTasks := (id, s.nextTask) :: s.liveTasks,
            nextTask := s.nextTask + 1 }) := by
      simp [ManagerInner.start, ManagerInner.startWith, h1, h2]
    have hlook : lookupItem (setItem s.items id
        { download := item.download,
          handle := some { taskId := s.nextTask, resumeOffset := none } }) id =
        some { download := item.download,
               handle := some { taskId := s.nextTask, resumeOffset := none } } :=
      lookupItem_set_self s.items id _ item h1
    have hcnt1 : taskCount ((id, s.nextTask) :: s.liveTasks) id = 1 := by
      rw [taskCount_cons, hcount]
      simp
    have hs2 : ManagerInner.start (ManagerInner.start s id).snd id =
        (Except.error ManagerError.AlreadyRunning, (ManagerInner.start s id).snd) := by
      rw [hs]
      simp [ManagerInner.start, ManagerInner.startWith, hlook]
    refine ⟨by rw [hs], ?_, ?_, hs2, ?_⟩
    · rw [hs]
      exact hlook
    · rw [hs]
      exact hcnt1
    · rw [hs2, hs]
      exact hcnt1

/-- Witness for C1: the idle download registered under identifier 7 in
`exampleReg` starts successfully, and a second start is refused. -/
theorem start_c1_witness :
    taskCount exampleReg.liveTasks 7 = runningFlag exampleReg 7 ∧
    ((ManagerInner.start exampleReg 7).fst = Except.ok () ∧
      lookupItem (ManagerInner.start exampleReg 7).snd.items 7 =
        some { download := exampleIdleItem.download,
               handle := some { taskId := exampleReg.nextTask, resumeOffset := none } } ∧
      taskCount (ManagerInner.start exampleReg 7).snd.liveTasks 7 = 1 ∧
      ManagerInner.start (ManagerInner.start exampleReg 7).snd 7 =
        (Except.error ManagerError.AlreadyRunning, (ManagerInner.start exampleReg 7).snd) ∧
      taskCount (ManagerInner.start (ManagerInner.start exampleReg 7).snd 7).snd.liveTasks 7 = 1) :=
  ⟨by decide,
    (start_c1 exampleReg 7 (by decide)).2.2 exampleIdleItem (by decide) rfl⟩

/-- C2: `stop(id)` on an identifier with no running task handle returns
the `DownloadNotRunning` error and returns the registry state unchanged
(the observer map is not touched by `stop` at all, so the observable
download state is unchanged as well). -/
theorem stop_c2 (s : ManagerInner) (id : Uuid)
    (h : hasRunningHandle s id = false) :
    ManagerInner.stop s id = (Except.error ManagerError.DownloadNotRunning, s) := by
  cases hl : lookupItem s.items id with
  | none => simp [ManagerInner.stop, hl]
  | some item =>
    cases hh : item.handle with
    | none => simp [ManagerInner.stop, hl, hh]
    | some th =>
      exfalso
      simp [hasRunningHandle, hl, hh] at h

/-- Witness for C2: stopping the never-started download 7 of `exampleReg`
returns `DownloadNotRunning` and the unchanged registry. -/
theorem stop_c2_witness :
    hasRunningHandle exampleReg 7 = false ∧
    ManagerInner.stop exampleReg 7 = (Except.error ManagerError.DownloadNotRunning, exampleReg) :=
  ⟨by decide, stop_c2 exampleReg 7 (by decide)⟩

/-- C3: the Manager exposes `resume(id)`; when the unit is observed
`Paused b` it behaves exactly like `start` except that it passes `b`, the
unit's last known byte count, as the resume offset (`start` passes no
offset); when the unit is not currently `Paused` it fails, leaving the
registry unchanged. -/
theorem resume_c3 (s : ManagerInner) (obs : ObserverMap) (id : Uuid) :
    (∀ b, Observer.get_state obs id = some (DownloadState.Paused b) →
      ManagerInner.resume s obs id = ManagerInner.startWith s id (some b)) ∧
    (observedPaused obs id = false →
      exceptFailed (ManagerInner.resume s obs id).fst = true ∧
      (ManagerInner.resume s obs id).snd = s) ∧
    ManagerInner.start s id = ManagerInner.startWith s id none := by
  refine ⟨?_, ?_, rfl⟩
  · intro b hb
    simp [ManagerInner.resume, hb]
  · intro h
    cases hg : Observer.get_state obs id with
    | none => simp [ManagerInner.resume, hg, exceptFailed]
    | some st =>
      cases st with
      | Paused b =>
        exfalso
        simp [observedPaused, hg] at h
      | Downloading b t => simp [ManagerInner.resume, hg, exceptFailed]
      | Completed t => simp [ManagerInner.resume, hg, exceptFailed]
      | Failed r => simp [ManagerInner.resume, hg, exceptFailed]

/-- Witness for C3: identifier 7 is observed `Paused 42`, so resuming it
equals starting it with offset 42; identifier 5 is observed `Downloading`,
so resuming it fails and changes nothing. -/
theorem resume_c3_witness :
    ManagerInner.resume exampleReg exampleObs 7 = ManagerInner.startWith exampleReg 7 (some 42) ∧
    (observedPaused exampleObs 5 = false ∧
      exceptFailed (ManagerInner.resume exampleReg exampleObs 5).fst = true ∧
      (ManagerInner.resume exampleReg exampleObs 5).snd = exampleReg) :=
  ⟨(resume_c3 exampleReg exampleObs 7).1 42 (by decide),
    ⟨by decide, (resume_c3 exampleReg exampleObs 5).2.1 (by decide)⟩⟩

/-- C4: `add(unit)` under a fresh identifier (the model of
`Uuid::new_v4()`) returns that identifier, inserts the unit into the
registry with no running task handle (Registered), spawns no task (the
live-task ledger is unchanged), and leaves every other entry unchanged. -/
theorem add_c4 (s : ManagerInner) (d : HttpDownload) (fid : Uuid)
    (hfresh : lookupItem s.items fid = none) :
    (ManagerInner.add s fid d).fst = Except.ok fid ∧
    lookupItem (ManagerInner.add s fid d).snd.items fid =
      some { download := d, handle := none } ∧
    hasRunningHandle (ManagerInner.add s fid d).snd fid = false ∧
    (ManagerInner.add s fid d).snd.liveTasks = s.liveTasks ∧
    (∀ id2, id2 ≠ fid →
      lookupItem (ManagerInner.add s fid d).snd.items id2 = lookupItem s.items id2) := by
  refine ⟨rfl, ?_, ?_, rfl, ?_⟩
  · simp [ManagerInner.add, lookupItem]
  · simp [ManagerInner.add, hasRunningHandle, lookupItem]
  · intro id2 h2
    have hne : ¬ fid = id2 := fun hc => h2 hc.symm
    show lookupItem ((fid, { download := d, handle := none }) :: s.items) id2 =
      lookupItem s.items id2
    exact lookupItem_cons_ne fid _ s.items id2 hne

/-- Witness for C4: adding `exampleDownload` to `exampleReg` under the
fresh identifier 9 registers it idle and leaves entry 7 alone. -/
theorem add_c4_witness :
    lookupItem exampleReg.items 9 = none ∧
    (ManagerInner.add exampleReg 9 exampleDownload).fst = Except.ok 9 ∧
    lookupItem (ManagerInner.add exampleReg 9 exampleDownload).snd.items 9 =
      some { download := exampleDownload, handle := none } ∧
    hasRunningHandle (ManagerInner.add exampleReg 9 exampleDownload).snd 9 = false ∧
    (ManagerInner.add exampleReg 9 exampleDownload).snd.liveTasks = exampleReg.liveTasks ∧
    lookupItem (ManagerInner.add exampleReg 9 exampleDownload).snd.items 7 =
      lookupItem exampleReg.items 7 :=
  ⟨by decide,
    (add_c4 exampleReg exampleDownload 9 (by decide)).1,
    (add_c4 exampleReg exampleDownload 9 (by decide)).2.1,
    (add_c4 exampleReg exampleDownload 9 (by decide)).2.2.1,
    (add_c4 exampleReg exampleDownload 9 (by decide)).2.2.2.1,
    (add_c4 exampleReg exampleDownload 9 (by decide)).2.2.2.2 7 (by decide)⟩

/-- C5: `delete(id, remove_file)` on a Running entry (task handle present)
fails and leaves the registry and the file system untouched; on a
non-Running entry it removes the registry entry and, exactly when
`remove_file` is true, removes the destination file (other files are
kept); with `remove_file` false the file system is untouched. -/
theorem delete_c5 (s : ManagerInner) (fs : List String) (id : Uuid) (removeFile : Bool) :
    (hasRunningHandle s id = true →
      exceptFailed (ManagerInner.delete s fs id removeFile).fst = true ∧
      (ManagerInner.delete s fs id removeFile).snd.fst = s ∧
      (ManagerInner.delete s fs id removeFile).snd.snd = fs) ∧
    (∀ item, lookupItem s.items id = some item → item.handle = none →
      (ManagerInner.delete s fs id removeFile).fst = Except.ok () ∧
      lookupItem (ManagerInner.delete s fs id removeFile).snd.fst.items id = none ∧
      (∀ id2, id2 ≠ id →
        lookupItem (ManagerInner.delete s fs id removeFile).snd.fst.items id2 =
          lookupItem s.items id2) ∧
      (removeFile = false → (ManagerInner.delete s fs id removeFile).snd.snd = fs) ∧
      (removeFile = true →
        HttpDownload.file_path item.download ∉
          (ManagerInner.delete s fs id removeFile).snd.snd ∧
        ∀ p ∈ fs, p ≠ HttpDownload.file_path item.download →
          p ∈ (ManagerInner.delete s fs id removeFile).snd.snd)) := by
  constructor
  · intro h
    cases hl : lookupItem s.items id with
    | none =>
      exfalso
      simp [hasRunningHandle, hl] at h
    | some item =>
      cases hh : item.handle with
      | none =>
        exfalso
        simp [hasRunningHandle, hl, hh] at h
      | some th =>
        simp [ManagerInner.delete, hl, hh, exceptFailed]
  · intro item hl hh
    have hdel : ManagerInner.delete s fs id removeFile =
        (Except.ok (),
          { items := removeItem s.items id,
            liveTasks := s.liveTasks,
            nextTask := s.nextTask },
          if removeFile then
            fs.filter (fun p => p ≠ HttpDownload.file_path item.download)
          else fs) := by
      simp [ManagerInner.delete, hl, hh]
    refine ⟨by rw [hdel], ?_, ?_, ?_, ?_⟩
    · rw [hdel]
      exact lookupItem_remove_self s.items id
    · intro id2 h2
      rw [hdel]
      exact lookupItem_remove_other s.items id id2 h2
    · intro hrf
      rw [hdel, hrf]
      simp
    · intro hrf
      rw [hdel, hrf]
      constructor
      · simpa using not_mem_filter_ne_self fs (HttpDownload.file_path item.download)
      · intro p hp hne
        simp [List.mem_filter, hp, hne]

/-- Witness for C5: deleting the running download 5 of `exampleMixedReg`
fails and changes nothing; deleting the idle download 6 with
`remove_file = true` removes its entry and its file and keeps the other
file. -/
theorem delete_c5_witness :
    (hasRunningHandle exampleMixedReg 5 = true ∧
      exceptFailed (ManagerInner.delete exampleMixedReg ["/downloads/f.bin", "/downloads/g.bin"] 5 true).fst = true ∧
      (ManagerInner.delete exampleMixedReg ["/downloads/f.bin", "/downloads/g.bin"] 5 true).snd.fst = exampleMixedReg ∧
      (ManagerInner.delete exampleMixedReg ["/downloads/f.bin", "/downloads/g.bin"] 5 true).snd.snd = ["/downloads/f.bin", "/downloads/g.bin"]) ∧
    ((ManagerInner.delete exampleMixedReg ["/downloads/f.bin", "/downloads/g.bin"] 6 true).fst = Except.ok () ∧
      lookupItem (ManagerInner.delete exampleMixedReg ["/downloads/f.bin", "/downloads/g.bin"] 6 true).snd.fst.items 6 = none ∧
      HttpDownload.file_path exampleIdleItem.download ∉
        (ManagerInner.delete exampleMixedReg ["/downloads/f.bin", "/downloads/g.bin"] 6 true).snd.snd ∧
      "/downloads/g.bin" ∈
        (ManagerInner.delete exampleMixedReg ["/downloads/f.bin", "/downloads/g.bin"] 6 true).snd.snd) :=
  ⟨⟨by decide,
      (delete_c5 exampleMixedReg ["/downloads/f.bin", "/downloads/g.bin"] 5 true).1 (by decide)⟩,
    (delete_c5 exampleMixedReg ["/downloads/f.bin", "/downloads/g.bin"] 6 true).2 exampleIdleItem (by decide) rfl |>.1,
    (delete_c5 exampleMixedReg ["/downloads/f.bin", "/downloads/g.bin"] 6 true).2 exampleIdleItem (by decide) rfl |>.2.1,
    ((delete_c5 exampleMixedReg ["/downloads/f.bin", "/downloads/g.bin"] 6 true).2 exampleIdleItem (by decide) rfl |>.2.2.2.2 rfl).1,
    ((delete_c5 exampleMixedReg ["/downloads/f.bin", "/downloads/g.bin"] 6 true).2 exampleIdleItem (by decide) rfl |>.2.2.2.2 rfl).2
      "/downloads/g.bin" (by decide) (by decide)⟩

/-- C6: along any transfer-loop execution the byte counts carried by the
emitted update messages are non-decreasing between consecutive updates,
and any `Paused` update carries exactly the byte count durably flushed to
the destination file when the loop returns. -/
theorem updates_c6 (cadence : Nat) (total : Option Nat) (disk buf cnt : Nat)
    (evs : List TransferEvent) :
    nondecr ((runLoop cadence total disk buf cnt evs).fst.filterMap bytesOfUpdate) ∧
    (∀ b, DownloadState.Paused b ∈ (runLoop cadence total disk buf cnt evs).fst →
      b = (runLoop cadence total disk buf cnt evs).snd) :=
  ⟨runLoop_mono cadence total evs disk buf cnt,
    fun b hb => runLoop_paused_flushed cadence total evs disk buf cnt b hb⟩

/-- Witness for C6: on the trace chunk 3, chunk 2, cancel with cadence 1
the loop emits Downloading 3, Downloading 5, Paused 5, and the paused
byte count 5 equals the flushed byte count returned by the loop. -/
theorem updates_c6_witness :
    nondecr ((runLoop 1 none 0 0 0 exampleEvents).fst.filterMap bytesOfUpdate) ∧
    5 = (runLoop 1 none 0 0 0 exampleEvents).snd :=
  ⟨(updates_c6 1 none 0 0 0 exampleEvents).1,
    (updates_c6 1 none 0 0 0 exampleEvents).2 5 (by decide)⟩

theorem startAllGo_keys (ids : List Uuid) :
    ∀ s, (startAllGo s ids).fst.map Prod.fst = ids := by
  induction ids with
  | nil => intro s; rfl
  | cons id rest ih =>
    intro s
    simp [startAllGo]
    exact ih _

theorem stopAllGo_keys (ids : List Uuid) :
    ∀ s, (stopAllGo s ids).fst.map Prod.fst = ids := by
  induction ids with
  | nil => intro s; rfl
  | cons id rest ih =>
    intro s
    simp [stopAllGo]
    exact ih _

/-- C7: `start_all` and `stop_all` attempt `start`/`stop` on every
registered identifier, in registry order, and return one reported outcome
per identifier: the identifiers of the reported outcome list are exactly
the registered identifiers, so an error on one identifier never prevents
the attempt on the remaining ones and no outcome is discarded. -/
theorem batch_c7 (s : ManagerInner) :
    (ManagerInner.start_all s).fst.map Prod.fst = s.items.map Prod.fst ∧
    (ManagerInner.stop_all s).fst.map Prod.fst = s.items.map Prod.fst :=
  ⟨startAllGo_keys (s.items.map Prod.fst) s, stopAllGo_keys (s.items.map Prod.fst) s⟩

/-- Witness for C7: in `exampleMixedReg` download 5 is already running, so
`start_all` reports `AlreadyRunning` for 5 yet still attempts and starts 6;
both outcomes are reported. -/
theorem batch_c7_witness :
    (ManagerInner.start_all exampleMixedReg).fst.map Prod.fst =
      exampleMixedReg.items.map Prod.fst ∧
    (ManagerInner.start_all exampleMixedReg).fst =
      [(5, Except.error ManagerError.AlreadyRunning), (6, Except.ok ())] :=
  ⟨(batch_c7 exampleMixedReg).1, by rfl⟩

/-- C8: no Manager operation returns the lock-acquisition error variant
(`Error::LockError`): the registry lock is taken by unbounded wait
(`self.inner.write().await` in mod.rs, which cannot fail), and `add`
always succeeds, returning the assigned identifier. -/
theorem locks_c8 (s : ManagerInner) (id fid : Uuid) (d : HttpDownload)
    (obs : ObserverMap) (fs : List String) (rm : Bool) :
    (ManagerInner.start s id).fst ≠ Except.error ManagerError.LockError ∧
    (ManagerInner.stop s id).fst ≠ Except.error ManagerError.LockError ∧
    (ManagerInner.add s fid d).fst = Except.ok fid ∧
    (ManagerInner.resume s obs id).fst ≠ Except.error ManagerError.LockError ∧
    (ManagerInner.delete s fs id rm).fst ≠ Except.error ManagerError.LockError := by
  refine ⟨?_, ?_, rfl, ?_, ?_⟩
  · cases hl : lookupItem s.items id with
    | none => simp [ManagerInner.start, ManagerInner.startWith, hl]
    | some item =>
      cases hh : item.handle with
      | none => simp [ManagerInner.start, ManagerInner.startWith, hl, hh]
      | some th => simp [ManagerInner.start, ManagerInner.startWith, hl, hh]
  · cases hl : lookupItem s.items id with
    | none => simp [ManagerInner.stop, hl]
    | some item =>
      cases hh : item.handle with
      | none => simp [ManagerInner.stop, hl, hh]
      | some th => simp [ManagerInner.stop, hl, hh]
  · cases hg : Observer.get_state obs id with
    | none => simp [ManagerInner.resume, hg]
    | some st =>
      cases st with
      | Paused b =>
        cases hl : lookupItem s.items id with
        | none => simp [ManagerInner.resume, hg, ManagerInner.startWith, hl]
        | some item =>
          cases hh : item.handle with
          | none => simp [ManagerInner.resume, hg, ManagerInner.startWith, hl, hh]
          | some th => simp [ManagerInner.resume, hg, ManagerInner.startWith, hl, hh]
      | Downloading b t => simp [ManagerInner.resume, hg]
      | Completed t => simp [ManagerInner.resume, hg]
      | Failed r => simp [ManagerInner.resume, hg]
  · cases hl : lookupItem s.items id with
    | none => simp [ManagerInner.delete, hl]
    | some item =>
      cases hh : item.handle with
      | none => simp [ManagerInner.delete, hl, hh]
      | some th => simp [ManagerInner.delete, hl, hh]

/-- Witness for C8 at the concrete mixed registry: neither starting the
running download 5 nor stopping the idle download 6 nor the other
operations yield a lock error. -/
theorem locks_c8_witness :
    (ManagerInner.start exampleMixedReg 5).fst ≠ Except.error ManagerError.LockError ∧
    (ManagerInner.stop exampleMixedReg 5).fst ≠ Except.error ManagerError.LockError ∧
    (ManagerInner.add exampleMixedReg 9 exampleDownload).fst = Except.ok 9 ∧
    (ManagerInner.resume exampleMixedReg exampleObs 5).fst ≠ Except.error ManagerError.LockError ∧
    (ManagerInner.delete exampleMixedReg [] 5 false).fst ≠ Except.error ManagerError.LockError :=
  locks_c8 exampleMixedReg 5 9 exampleDownload exampleObs [] false

/-- C9: whenever `create_download` succeeds, it replies 201 CREATED and
the observer immediately tracks the new identifier as
`Paused(b)` where `b` is the byte count of the destination file on disk
at creation time; in particular the initially observed state is `Paused`,
never `Downloading`, `Completed` or `Failed`. -/
theorem create_c9 (env : CreateEnv) (s : ManagerInner) (obs : ObserverMap)
    (code : Nat) (d : HttpDownload) (s2 : ManagerInner) (obs2 : ObserverMap)
    (h : create_download env s obs = (Except.ok (code, d), s2, obs2)) :
    code = 201 ∧
    Observer.get_state obs2 env.freshId =
      some (DownloadState.Paused (env.fileSize (HttpDownload.file_path d))) ∧
    (∀ st, Observer.get_state obs2 env.freshId = some st → isPausedState st = true) := by
  cases hu : env.parsedUrl with
  | none =>
    simp [create_download, hu] at h
  | some u =>
    cases hf : env.parsedFileName with
    | none =>
      simp [create_download, hu, hf] at h
    | some name0 =>
      by_cases hc : env.createOk
      · simp only [create_download, hu, hf, if_pos hc, Prod.mk.injEq,
          Except.ok.injEq] at h
        obtain ⟨⟨hcode, hd⟩, hs2, hobs⟩ := h
        subst hd
        subst hobs
        refine ⟨hcode.symm, get_state_track_self obs env.freshId _, ?_⟩
        intro st hst
        rw [get_state_track_self obs env.freshId _] at hst
        injection hst with hst2
        rw [← hst2]
        rfl
      · simp [create_download, hu, hf, hc] at h

/-- Witness for C9: creating a download in environment `exampleEnv`
(42 bytes already on disk, fresh identifier 9) makes the observer report
identifier 9 as `Paused 42`. -/
theorem create_c9_witness :
    create_download exampleEnv exampleReg [] =
      (Except.ok (201, exampleDownload),
        { items := (9, { download := exampleDownload, handle := none }) :: exampleReg.items,
          liveTasks := [],
          nextTask := 0 },
        [(9, DownloadState.Paused 42)]) ∧
    Observer.get_state [(9, DownloadState.Paused 42)] exampleEnv.freshId =
      some (DownloadState.Paused
        (exampleEnv.fileSize (HttpDownload.file_path exampleDownload))) ∧
    isPausedState (DownloadState.Paused 42) = true :=
  ⟨by rfl,
    (create_c9 exampleEnv exampleReg [] 201 exampleDownload
      { items := (9, { download := exampleDownload, handle := none }) :: exampleReg.items,
        liveTasks := [],
        nextTask := 0 }
      [(9, DownloadState.Paused 42)] (by rfl)).2.1,
    (create_c9 exampleEnv exampleReg [] 201 exampleDownload
      { items := (9, { download := exampleDownload, handle := none }) :: exampleReg.items,
        liveTasks := [],
        nextTask := 0 }
      [(9, DownloadState.Paused 42)] (by rfl)).2.2 (DownloadState.Paused 42) (by rfl)⟩

/-- C10: the destination file name is prefixed with a fresh UUID (and a
dash) exactly when the existence check succeeds and reports the file
present; when the check succeeds reporting absence, and also when the
check itself fails with an error, the parsed file name is used unchanged;
the download created by a successful `create_download` carries exactly
the name resolved this way. -/
theorem rename_c10 (u : Uuid) (n : String) :
    resolveName (Except.ok true) u n = toString u ++ "-" ++ n ∧
    resolveName (Except.ok false) u n = n ∧
    (∀ msg, resolveName (Except.error msg) u n = n) ∧
    (∀ (env : CreateEnv) (s : ManagerInner) (obs : ObserverMap) (code : Nat)
        (d : HttpDownload) (s2 : ManagerInner) (obs2 : ObserverMap) (name0 : String),
      env.parsedFileName = some name0 →
      create_download env s obs = (Except.ok (code, d), s2, obs2) →
      d.fileName = resolveName env.tryExistsResult env.renameUuid name0) := by
  refine ⟨rfl, rfl, fun msg => rfl, ?_⟩
  intro env s obs code d s2 obs2 name0 hn h
  cases hu : env.parsedUrl with
  | none =>
    simp [create_download, hu] at h
  | some u2 =>
    by_cases hc : env.createOk
    · simp only [create_download, hu, hn, if_pos hc, Prod.mk.injEq,
        Except.ok.injEq] at h
      obtain ⟨⟨hcode, hd⟩, hs2, hobs⟩ := h
      rw [← hd]
    · simp [create_download, hu, hn, hc] at h

/-- Witness for C10 at concrete inputs: with an existing file the name is
tagged with the UUID, with a failed check or an absent file it is kept,
and the download created under `exampleEnv` (whose existence check fails
with an I/O error) keeps the parsed name. -/
theorem rename_c10_witness :
    resolveName (Except.ok true) 11 "f.bin" = toString (11 : Uuid) ++ "-" ++ "f.bin" ∧
    resolveName (Except.ok false) 11 "f.bin" = "f.bin" ∧
    resolveName (Except.error "io error") 11 "f.bin" = "f.bin" ∧
    HttpDownload.fileName exampleDownload =
      resolveName exampleEnv.tryExistsResult exampleEnv.renameUuid "f.bin" :=
  ⟨(rename_c10 11 "f.bin").1,
    (rename_c10 11 "f.bin").2.1,
    (rename_c10 11 "f.bin").2.2.1 "io error",
    (rename_c10 11 "f.bin").2.2.2 exampleEnv exampleReg [] 201 exampleDownload
      { items := (9, { download := exampleDownload, handle := none }) :: exampleReg.items,
        liveTasks := [],
        nextTask := 0 }
      [(9, DownloadState.Paused 42)] "f.bin" rfl (by rfl)⟩
